import Mathlib

/-!
# Verification of the MTProto sender core

A shallow embedding of the sender core found in
`src/gramjs/network/MTProtoSender.ts`, together with proofs of the
behavioural claims about it.  Message ids, salts and sequence numbers are
modelled as mathematical integers; the pending-state map (a JS `Map` keyed
by the decimal string of the message id) is modelled as an association
list keyed by the integer itself; JS `Map` iteration order is insertion
order, which the association list preserves.
-/

namespace MTProtoSender

/-- A TL request object, as far as the sender core inspects it. -/
inductive TLRequest where
  | rpc (id : Nat)
  | msgsAck (msgIds : List Int)
  | msgsStateInfo (reqMsgId : Int) (info : List Nat)
  deriving DecidableEq, Repr

/-- `request.classType === "request"`: only user RPCs expect a reply. -/
def TLRequest.isRequestClass : TLRequest → Bool
  | .rpc _ => true
  | _ => false

/-- A `big-integer` object on the JS heap.  `ref` is the object identity:
two values model the same runtime object exactly when their `ref`s are
equal, and the runtime never gives distinct objects with different
numeric values the same `ref`.  `val` is the numeric value.  JS `===`
compares object identity; the library's `.equals` and `.toString()` use
the value. -/
structure JSBigInt where
  ref : Nat
  val : Int
  deriving DecidableEq, Repr

/-- JS `x === m` for `x` a possibly-`undefined` big-integer field and `m`
a big-integer object: `undefined === m` is false, and between two
objects `===` is reference identity, not value equality. -/
def jsStrictEqOptBig (x : Option JSBigInt) (m : JSBigInt) : Bool :=
  match x with
  | some j => j.ref == m.ref
  | none => false

/-- `state.containerId && state.containerId.equals(msgId)`: truthiness of
the field, then the big-integer library's value comparison. -/
def containerHit (c : Option JSBigInt) (m : JSBigInt) : Bool :=
  match c with
  | some j => j.val == m.val
  | none => false

/-- Whether the possibly-unassigned big-integer `x` has `x.toString()`
equal to the map key `k`. -/
def keyHit (x : Option JSBigInt) (k : Int) : Bool :=
  match x with
  | some j => j.val == k
  | none => false

/-- `RequestState`: a submitted request together with its assigned message
id and the id of the container that wrapped it, when any.  `msgId` and
`containerId` are `none` while unassigned (JS `undefined`). -/
structure RequestState where
  request : TLRequest
  msgId : Option JSBigInt
  containerId : Option JSBigInt
  deriving DecidableEq, Repr

/-- `new RequestState(request)`: ids start out unassigned. -/
def RequestState.mk0 (req : TLRequest) : RequestState :=
  { request := req, msgId := none, containerId := none }

/-- The pending-state map `_pendingState : Map<string, RequestState>`,
keyed by the message id. -/
abbrev PendingMap := List (Int × RequestState)

/-- `Map.get`. -/
def mapGet (m : PendingMap) (k : Int) : Option RequestState :=
  (m.find? (fun p => p.1 == k)).map Prod.snd

/-- `Map.delete` (JS keys are unique, so filtering is the same removal). -/
def mapDelete (m : PendingMap) (k : Int) : PendingMap :=
  m.filter (fun p => p.1 != k)

/-- `Map.values()`, in insertion order. -/
def mapValues (m : PendingMap) : List RequestState := m.map Prod.snd

/-- `this._pendingState.get(x!.toString())` through a possibly-unassigned
big-integer: map keys are the decimal strings of the values. -/
def getByOptKey (m : PendingMap) (x : Option JSBigInt) : Option RequestState :=
  match x with
  | some j => mapGet m j.val
  | none => none

/-- `this._pendingState.delete(x!.toString())`. -/
def deleteByOptKey (m : PendingMap) (x : Option JSBigInt) : PendingMap :=
  match x with
  | some j => mapDelete m j.val
  | none => m

/-- `_popStates(msgId)`, translated clause by clause from the source:
first a direct hit on the pending map (string keys, hence by value),
else the container fan-out (a `.equals` value comparison, collecting the
member states' own msg ids and popping each by its string key), else a
scan of the last-acks ring — where the source compares
`ack.msgId === msgId`, and between two big-integer objects `===` is
reference identity, not value equality — else empty.  Returns the popped
states and the remaining pending map. -/
def popStates (pending : PendingMap) (lastAcks : List RequestState)
    (msgId : JSBigInt) : List RequestState × PendingMap :=
  match mapGet pending msgId.val with
  | some st => ([st], mapDelete pending msgId.val)
  | none =>
    let toPop := ((mapValues pending).filter
        (fun st => containerHit st.containerId msgId)).map (fun st => st.msgId)
    if toPop.isEmpty then
      match lastAcks.find? (fun ack => jsStrictEqOptBig ack.msgId msgId) with
      | some ack => ([ack], pending)
      | none => ([], pending)
    else
      (toPop.filterMap (fun x => getByOptKey pending x),
       toPop.foldl (fun m x => deleteByOptKey m x) pending)

/-- The four-step algorithm exactly as the spec words it: direct hit,
else collect and remove the container members directly, else return the
first last-acks entry whose msg id *matches* — a value comparison — else
empty. -/
def popStatesSpec (pending : PendingMap) (lastAcks : List RequestState)
    (msgId : JSBigInt) : List RequestState × PendingMap :=
  match mapGet pending msgId.val with
  | some st => ([st], mapDelete pending msgId.val)
  | none =>
    let matched := (mapValues pending).filter
        (fun st => containerHit st.containerId msgId)
    if matched.isEmpty then
      match lastAcks.find? (fun ack => keyHit ack.msgId msgId.val) with
      | some ack => ([ack], pending)
      | none => ([], pending)
    else
      (matched,
       pending.filter (fun p => !(containerHit p.2.containerId msgId)))

/-- Well-formedness of the pending map, maintained by the send loop: keys
are unique and every entry is stored under the value of its own assigned
msg id. -/
def PendingWF (pending : PendingMap) : Prop :=
  (pending.map Prod.fst).Nodup ∧ ∀ p ∈ pending, keyHit p.2.msgId p.1 = true

/-- `_lastAcks.push(ack); if (_lastAcks.length >= 10) _lastAcks.shift()`
from the send loop: append, then drop the oldest when the length after
the push has reached 10. -/
def pushAckToLastAcks (lastAcks : List RequestState) (ack : RequestState) :
    List RequestState :=
  let r := lastAcks ++ [ack]
  if 10 ≤ r.length then r.drop 1 else r

/-- The sender's mutable fields touched by the claims under study.
`sendQueue` models the `MessagePacker`; a `none` entry is the `undefined`
shutdown sentinel appended by `_reconnect`.  `sessionSeed` stands for the
session id rolled by `MTProtoState.reset`. -/
structure Sender where
  userConnected : Bool
  userDisconnected : Bool
  reconnecting : Bool
  isConnecting : Bool
  salt : Int
  sequence : Int
  sessionSeed : Nat
  pendingState : PendingMap
  pendingAck : List Int
  lastAcks : List RequestState
  sendQueue : List (Option RequestState)
  deriving DecidableEq, Repr

/-- `disconnect()` followed by `_disconnect()`: sets `userDisconnected`,
rejects the whole send queue (`rejectAll` empties it), clears
`userConnected` and closes the connection. -/
def Sender.disconnectFull (s : Sender) : Sender :=
  let s1 := { s with userDisconnected := true }
  let s2 := { s1 with sendQueue := [] }
  { s2 with userConnected := false }

/-- `connect(newConnection, force = true)` as `_reconnect` issues it, with
an auth key already present: records `isConnecting`, runs `_connect`
(sets `userConnected`, clears `reconnecting`), spawns the loops.  The
spawned `_sendLoop` synchronously replaces the send queue with a fresh
`MessagePacker` and, when acks are pending, drains them into one
`MsgsAck` before its first suspension at `get()`. -/
def Sender.connectForce (s : Sender) : Sender :=
  let s1 := { s with isConnecting := true }
  let s2 := { s1 with userConnected := true, reconnecting := false }
  let s3 := { s2 with sendQueue := [] }
  let s4 :=
    if s3.pendingAck.isEmpty then s3
    else
      let ack := RequestState.mk0 (.msgsAck s3.pendingAck)
      { s3 with sendQueue := s3.sendQueue ++ [some ack],
                lastAcks := pushAckToLastAcks s3.lastAcks ack,
                pendingAck := [] }
  { s4 with isConnecting := false }

/-- `_reconnect()` end to end: `disconnect()`, append the `undefined`
sentinel, `state.reset()`, `connect(newConnection, true)`, clear
`reconnecting`, extend the queue with every pending state, replace the
pending map with a fresh empty one. -/
def Sender.reconnectFull (s : Sender) : Sender :=
  let s1 := s.disconnectFull
  let s2 := { s1 with sendQueue := s1.sendQueue ++ [none] }
  let s3 := { s2 with sessionSeed := s2.sessionSeed + 1 }
  let s4 := s3.connectForce
  let s5 := { s4 with reconnecting := false }
  let s6 := { s5 with
    sendQueue := s5.sendQueue ++ (mapValues s5.pendingState).map some }
  { s6 with pendingState := [] }

/-- `reconnect()`: schedules `_reconnect` only when connected and not
already reconnecting.  The boolean reports whether it was scheduled. -/
def Sender.reconnectCall (s : Sender) : Sender × Bool :=
  if s.userConnected && !s.reconnecting then
    ({ s with reconnecting := true }, true)
  else (s, false)

/-- The `catch` around `connection.recv()` in `_recvLoop`: when the user
did not initiate the disconnect the error is logged and `reconnect()` is
called; either way the loop returns. -/
def Sender.onRecvError (s : Sender) : Sender × Bool :=
  if !s.userDisconnected then s.reconnectCall
  else (s, false)

/-- Errors `send` reports to the caller. -/
inductive SendError where
  | notConnected
  deriving DecidableEq, Repr

/-- `send(request)`: throws when not connected, otherwise builds a fresh
`RequestState`, appends it to the send queue and returns its completion
handle (modelled by the state itself). -/
def Sender.send (s : Sender) (req : TLRequest) :
    Sender × Except SendError RequestState :=
  if !s.userConnected then
    (s, .error SendError.notConnected)
  else
    let st := RequestState.mk0 req
    ({ s with sendQueue := s.sendQueue ++ [some st] }, .ok st)

/-- `bad_server_salt` payload. -/
structure BadServerSaltMsg where
  badMsgId : JSBigInt
  newServerSalt : Int
  deriving DecidableEq, Repr

/-- Observable actions of a meta-message handler, in program order. -/
inductive Ev where
  | setSalt (v : Int)
  | enqueue (st : RequestState)
  deriving DecidableEq, Repr

/-- Result of `_handleBadServerSalt`. -/
structure SaltHandlerOut where
  salt : Int
  pending : PendingMap
  sendQueue : List (Option RequestState)
  trace : List Ev
  deriving DecidableEq, Repr

/-- `_handleBadServerSalt(message)`: first `state.salt = newServerSalt`,
then pop the states linked to `badMsgId` and extend the send queue with
them.  The trace records the actions in the order the source performs
them. -/
def handleBadServerSalt (_salt : Int) (pending : PendingMap)
    (lastAcks : List RequestState) (sendQueue : List (Option RequestState))
    (m : BadServerSaltMsg) : SaltHandlerOut :=
  let salt1 := m.newServerSalt
  let popped := popStates pending lastAcks m.badMsgId
  { salt := salt1,
    pending := popped.2,
    sendQueue := sendQueue ++ popped.1.map some,
    trace := Ev.setSalt m.newServerSalt :: popped.1.map Ev.enqueue }

/-- `bad_msg_notification` payload. -/
structure BadMsgNote where
  badMsgId : JSBigInt
  errorCode : Int
  deriving DecidableEq, Repr

/-- Result of `_handleBadNotification`.  `rejected` holds the
`BadMessageError(state.request, errorCode)` rejections issued, one per
popped state; `timeOffsetUpd` records the argument of the
`updateTimeOffset` call when one happens. -/
structure BadMsgOut where
  pending : PendingMap
  sequence : Int
  enqueued : List RequestState
  rejected : List (TLRequest × Int)
  timeOffsetUpd : Option Int
  deriving DecidableEq, Repr

/-- `_handleBadNotification(message)`: pop the states for `badMsgId`,
then branch on the error code exactly as the source does; codes 16/17
call `updateTimeOffset(message.msgId)`, 32 does `_sequence += 64`, 33
does `_sequence -= 16`, and each of these falls through to the final
re-enqueue; any other code rejects every popped state and returns. -/
def handleBadNotification (pending : PendingMap)
    (lastAcks : List RequestState) (sequence : Int) (msgMsgId : Int)
    (m : BadMsgNote) : BadMsgOut :=
  let popped := popStates pending lastAcks m.badMsgId
  if m.errorCode == 16 || m.errorCode == 17 then
    { pending := popped.2, sequence := sequence, enqueued := popped.1,
      rejected := [], timeOffsetUpd := some msgMsgId }
  else if m.errorCode == 32 then
    { pending := popped.2, sequence := sequence + 64, enqueued := popped.1,
      rejected := [], timeOffsetUpd := none }
  else if m.errorCode == 33 then
    { pending := popped.2, sequence := sequence - 16, enqueued := popped.1,
      rejected := [], timeOffsetUpd := none }
  else
    { pending := popped.2, sequence := sequence, enqueued := [],
      rejected := popped.1.map (fun st => (st.request, m.errorCode)),
      timeOffsetUpd := none }

/-- Callback configuration of a sender. -/
structure SenderCfg where
  isMainSender : Bool
  dcId : Int
  hasUpdateCallback : Bool
  hasOnConnectionBreak : Bool
  deriving DecidableEq, Repr

/-- The failures `decryptMessageData` can raise. -/
inductive DecryptError where
  | typeNotFound
  | securityError
  | invalidBuffer (code : Int)
  | otherError
  deriving DecidableEq, Repr

/-- What the `catch` around `decryptMessageData` in `_recvLoop` does. -/
structure RecvErrOutcome where
  continueLoop : Bool
  emitBroken : Bool
  connBreakArg : Option Int
  reconnectCalled : Bool
  deriving DecidableEq, Repr

/-- The decrypt-error dispatch of `_recvLoop`, branch by branch:
`TypeNotFoundError` and `SecurityError` continue the loop;
`InvalidBufferError` with code 404 emits `broken` when this is the main
sender and an update callback exists, else calls `onConnectionBreak(dcId)`
when that callback exists and this is not the main sender, and returns
without reconnecting; any other buffer code and any other error call
`reconnect()` and return. -/
def handleDecryptError (cfg : SenderCfg) (e : DecryptError) :
    RecvErrOutcome :=
  match e with
  | .typeNotFound =>
    { continueLoop := true, emitBroken := false, connBreakArg := none,
      reconnectCalled := false }
  | .securityError =>
    { continueLoop := true, emitBroken := false, connBreakArg := none,
      reconnectCalled := false }
  | .invalidBuffer code =>
    if code == 404 then
      if cfg.hasUpdateCallback && cfg.isMainSender then
        { continueLoop := false, emitBroken := true, connBreakArg := none,
          reconnectCalled := false }
      else if cfg.hasOnConnectionBreak && !cfg.isMainSender then
        { continueLoop := false, emitBroken := false,
          connBreakArg := some cfg.dcId, reconnectCalled := false }
      else
        { continueLoop := false, emitBroken := false, connBreakArg := none,
          reconnectCalled := false }
    else
      { continueLoop := false, emitBroken := false, connBreakArg := none,
        reconnectCalled := true }
  | .otherError =>
    { continueLoop := false, emitBroken := false, connBreakArg := none,
      reconnectCalled := true }

/-- Result of a `connect(connection, force)` call. -/
structure ConnectOut where
  retVal : Bool
  succeeded : Bool
  attemptsUsed : Nat
  deriving DecidableEq, Repr

/-- The retry loop of `connect`: each list entry is the outcome of one
`await this._connect()` attempt (the list has one entry per configured
retry).  The loop breaks on the first success. -/
def runConnectAttempts : List Bool → Bool × Nat
  | [] => (false, 0)
  | a :: rest =>
    if a then (true, 1)
    else
      let r := runConnectAttempts rest
      (r.1, r.2 + 1)

/-- `connect(connection, force)`: returns `false` at once when already
connected and not forced; otherwise runs the retry loop and returns
`true` regardless of whether any attempt succeeded. -/
def connect (userConnected : Bool) (force : Bool) (attempts : List Bool) :
    ConnectOut :=
  if userConnected && !force then
    { retVal := false, succeeded := false, attemptsUsed := 0 }
  else
    let r := runConnectAttempts attempts
    { retVal := true, succeeded := r.1, attemptsUsed := r.2 }

/-- `Number(array)` in JS: an empty array converts to 0, a one-element
array to its element, and any longer array to NaN (`none`). -/
def jsArrayToNumber : List Int → Option Int
  | [] => some 0
  | [x] => some x
  | _ => none

/-- `ToIntegerOrInfinity` as `String.prototype.repeat` applies it to its
argument: NaN becomes 0. -/
def toIntegerOrInfinity : Option Int → Int
  | none => 0
  | some x => x

/-- The repeat count that `String.fromCharCode(1).repeat(message.obj.msgIds)`
actually uses: the msg-id *list* coerced to a number.  A negative count
makes `repeat` throw a RangeError (`none`). -/
def stateForgottenInfo (msgIds : List Int) : Option (List Nat) :=
  let n := toIntegerOrInfinity (jsArrayToNumber msgIds)
  if n < 0 then none else some (List.replicate n.toNat 1)

/-- The `MsgsStateInfo` object built by `_handleStateForgotten`. -/
structure MsgsStateInfoMsg where
  reqMsgId : Int
  info : List Nat
  deriving DecidableEq, Repr

/-- `_handleStateForgotten(message)`: enqueue a `MsgsStateInfo` whose
`reqMsgId` is the incoming message's msg id and whose `info` is the byte
0x01 repeated `repeat(message.obj.msgIds)` times. -/
def handleStateForgotten (msgId : Int) (msgIds : List Int) :
    Option MsgsStateInfoMsg :=
  (stateForgottenInfo msgIds).map
    (fun info => { reqMsgId := msgId, info := info })

/-! ## Helper lemmas -/

lemma connectForce_pendingState (s : Sender) :
    (s.connectForce).pendingState = s.pendingState := by
  unfold Sender.connectForce
  dsimp only
  split <;> rfl

lemma connectForce_userDisconnected (s : Sender) :
    (s.connectForce).userDisconnected = s.userDisconnected := by
  unfold Sender.connectForce
  dsimp only
  split <;> rfl

lemma reconnectFull_pendingState (s : Sender) :
    s.reconnectFull.pendingState = [] := rfl

lemma reconnectFull_userDisconnected (s : Sender) :
    s.reconnectFull.userDisconnected = true := by
  unfold Sender.reconnectFull Sender.disconnectFull
  dsimp only
  rw [connectForce_userDisconnected]

/-! ## Theorems for the claims -/

/-- C1: for every reconnect that is not user-initiated, after `_reconnect`
completes every `RequestState` that was in the pending-state map before
the reconnect has been moved into the send queue, and the pending-state
map is empty. -/
theorem reconnect_moves_pending_into_queue (s : Sender) (st : RequestState)
    (hnd : s.userDisconnected = false)
    (hmem : st ∈ mapValues s.pendingState) :
    some st ∈ s.reconnectFull.sendQueue ∧
      s.reconnectFull.pendingState = [] := by
  refine ⟨?_, rfl⟩
  unfold Sender.reconnectFull
  dsimp only
  rw [connectForce_pendingState]
  exact List.mem_append_right _ (List.mem_map_of_mem _ hmem)

theorem reconnect_moves_pending_into_queue_witness :
    some (⟨.rpc 1, some ⟨0, 5⟩, none⟩ : RequestState) ∈
      (Sender.reconnectFull
        ⟨true, false, true, false, 0, 0, 0,
          [(5, ⟨.rpc 1, some ⟨0, 5⟩, none⟩)], [], [], []⟩).sendQueue ∧
    (Sender.reconnectFull
        ⟨true, false, true, false, 0, 0, 0,
          [(5, ⟨.rpc 1, some ⟨0, 5⟩, none⟩)], [], [], []⟩).pendingState = [] :=
  reconnect_moves_pending_into_queue _ _ rfl (by decide)

/-- C3: for every `BadServerSalt` message, the handler installs the new
salt strictly before any state previously associated with the bad msg id
is re-enqueued into the send queue: every enqueue action in the handler
trace is preceded by the salt installation. -/
theorem salt_installed_before_reenqueue (salt : Int) (pending : PendingMap)
    (lastAcks : List RequestState) (sendQueue : List (Option RequestState))
    (m : BadServerSaltMsg) (i : Nat) (st : RequestState)
    (h : (handleBadServerSalt salt pending lastAcks sendQueue m).trace.get? i
        = some (Ev.enqueue st)) :
    ∃ j, j < i ∧
      (handleBadServerSalt salt pending lastAcks sendQueue m).trace.get? j
        = some (Ev.setSalt m.newServerSalt) := by
  have h0 : (handleBadServerSalt salt pending lastAcks sendQueue m).trace.get? 0
      = some (Ev.setSalt m.newServerSalt) := rfl
  cases i with
  | zero => rw [h0] at h; simp at h
  | succ n => exact ⟨0, Nat.succ_pos n, h0⟩

theorem salt_installed_before_reenqueue_witness :
    ∃ j, j < 1 ∧
      (handleBadServerSalt 0 [(5, ⟨.rpc 1, some ⟨0, 5⟩, none⟩)] [] []
        ⟨⟨7, 5⟩, 99⟩).trace.get? j = some (Ev.setSalt 99) :=
  salt_installed_before_reenqueue 0 [(5, ⟨.rpc 1, some ⟨0, 5⟩, none⟩)] [] []
    ⟨⟨7, 5⟩, 99⟩ 1 ⟨.rpc 1, some ⟨0, 5⟩, none⟩ (by decide)

/-- C10: `_reconnect` goes through the public `disconnect()`, which sets
`userDisconnected`, and no step of the reconnect sequence resets it; so
after an automatic reconnect a receive error makes the receive loop exit
silently without scheduling another reconnect. -/
theorem reconnect_sets_userDisconnected_forever (s : Sender) :
    s.reconnectFull.userDisconnected = true ∧
    s.reconnectFull.onRecvError = (s.reconnectFull, false) ∧
    s.disconnectFull.userDisconnected = true ∧
    (∀ t : Sender, t.connectForce.userDisconnected = t.userDisconnected) := by
  have hud := reconnectFull_userDisconnected s
  refine ⟨hud, ?_, rfl, connectForce_userDisconnected⟩
  unfold Sender.onRecvError
  rw [hud]
  simp

/-- C2: `_handleBadNotification` branches on the error code: 16/17 call
`updateTimeOffset(message.msgId)` and re-enqueue the popped states, 32
adds 64 to the sequence and re-enqueues, 33 subtracts 16 and re-enqueues,
and any other code rejects every popped state with
`BadMessageError(request, code)` and re-enqueues none. -/
theorem bad_notification_cases (pending : PendingMap)
    (lastAcks : List RequestState) (sequence msgMsgId : Int)
    (m : BadMsgNote) :
    let popped := (popStates pending lastAcks m.badMsgId).1
    let out := handleBadNotification pending lastAcks sequence msgMsgId m
    ((m.errorCode = 16 ∨ m.errorCode = 17) →
      out.timeOffsetUpd = some msgMsgId ∧ out.enqueued = popped ∧
      out.rejected = [] ∧ out.sequence = sequence) ∧
    (m.errorCode = 32 →
      out.sequence = sequence + 64 ∧ out.enqueued = popped ∧
      out.rejected = [] ∧ out.timeOffsetUpd = none) ∧
    (m.errorCode = 33 →
      out.sequence = sequence - 16 ∧ out.enqueued = popped ∧
      out.rejected = [] ∧ out.timeOffsetUpd = none) ∧
    (m.errorCode ≠ 16 → m.errorCode ≠ 17 → m.errorCode ≠ 32 →
      m.errorCode ≠ 33 →
      out.rejected = popped.map (fun st => (st.request, m.errorCode)) ∧
      out.enqueued = [] ∧ out.sequence = sequence ∧
      out.timeOffsetUpd = none) := by
  refine ⟨?_, ?_, ?_, ?_⟩
  · rintro (h | h) <;> simp [handleBadNotification, h]
  · intro h; simp [handleBadNotification, h]
  · intro h; simp [handleBadNotification, h]
  · intro h16 h17 h32 h33
    simp [handleBadNotification, h16, h17, h32, h33]

theorem bad_notification_cases_witness :
    (handleBadNotification [(5, ⟨.rpc 1, some ⟨0, 5⟩, none⟩)] [] 0 777
        ⟨⟨7, 5⟩, 48⟩).rejected = [(TLRequest.rpc 1, 48)] ∧
    (handleBadNotification [(5, ⟨.rpc 1, some ⟨0, 5⟩, none⟩)] [] 0 777
        ⟨⟨7, 5⟩, 48⟩).enqueued = [] := by
  have h := (bad_notification_cases [(5, ⟨.rpc 1, some ⟨0, 5⟩, none⟩)] [] 0 777
    ⟨⟨7, 5⟩, 48⟩).2.2.2 (by decide) (by decide) (by decide) (by decide)
  refine ⟨?_, h.2.1⟩
  rw [h.1]
  decide

/-- C5: on `InvalidBufferError` with code 404, with the callbacks
configured, the main sender emits `UpdateConnectionState.broken` via the
update callback while a non-main sender invokes `onConnectionBreak(dcId)`
with the configured dc id; in both cases the receive loop exits and no
reconnect is scheduled. -/
theorem invalid_buffer_404_behavior (cfg : SenderCfg)
    (hupd : cfg.hasUpdateCallback = true)
    (hbrk : cfg.hasOnConnectionBreak = true) :
    let out := handleDecryptError cfg (.invalidBuffer 404)
    (cfg.isMainSender = true →
      out.emitBroken = true ∧ out.connBreakArg = none) ∧
    (cfg.isMainSender = false →
      out.connBreakArg = some cfg.dcId ∧ out.emitBroken = false) ∧
    out.continueLoop = false ∧ out.reconnectCalled = false := by
  cases hm : cfg.isMainSender <;>
    simp [handleDecryptError, hupd, hbrk, hm]

theorem invalid_buffer_404_behavior_witness :
    (handleDecryptError ⟨false, 2, true, true⟩
        (.invalidBuffer 404)).connBreakArg = some 2 ∧
    (handleDecryptError ⟨false, 2, true, true⟩
        (.invalidBuffer 404)).emitBroken = false ∧
    (handleDecryptError ⟨false, 2, true, true⟩
        (.invalidBuffer 404)).reconnectCalled = false := by
  have h := invalid_buffer_404_behavior ⟨false, 2, true, true⟩ rfl rfl
  exact ⟨(h.2.1 rfl).1, (h.2.1 rfl).2, h.2.2.2⟩

/-- C8: `send(request)` throws synchronously when the sender is not
connected, leaving the sender (in particular the send queue) untouched;
when connected it appends a fresh `RequestState` for the request to the
send queue and returns that state's completion handle. -/
theorem send_checks_connection (s : Sender) (req : TLRequest) :
    (s.userConnected = false →
      s.send req = (s, .error SendError.notConnected)) ∧
    (s.userConnected = true →
      s.send req =
        ({ s with sendQueue := s.sendQueue ++ [some (RequestState.mk0 req)] },
         .ok (RequestState.mk0 req))) := by
  constructor <;> intro h <;> simp [Sender.send, h]

theorem send_checks_connection_witness :
    Sender.send ⟨false, false, false, false, 0, 0, 0, [], [], [], []⟩
        (.rpc 7)
      = (⟨false, false, false, false, 0, 0, 0, [], [], [], []⟩,
         .error SendError.notConnected) ∧
    Sender.send ⟨true, false, false, false, 0, 0, 0, [], [], [], []⟩
        (.rpc 7)
      = (⟨true, false, false, false, 0, 0, 0, [], [], [],
          [some (RequestState.mk0 (.rpc 7))]⟩,
         .ok (RequestState.mk0 (.rpc 7))) := by
  refine ⟨(send_checks_connection _ (.rpc 7)).1 rfl, ?_⟩
  have h := (send_checks_connection
    ⟨true, false, false, false, 0, 0, 0, [], [], [], []⟩ (.rpc 7)).2 rfl
  rw [h]
  rfl

/-- C9: `connect(connection, force)` returns `false` only in the
already-connected-and-not-forced case; whenever the sender was not
already connected it returns `true` no matter how the retry attempts
fared, so the return value does not distinguish success from failure. -/
theorem connect_retval_only_flags_already_connected
    (userConnected force : Bool) (attempts : List Bool) :
    (connect userConnected force attempts).retVal = false ↔
      (userConnected = true ∧ force = false) := by
  cases userConnected <;> cases force <;> simp [connect]

/-- C7: what `_handleStateForgotten` actually builds.  The incoming
msg-id list is coerced to a number by `String.prototype.repeat`, so a
one-element list `[5]` yields five 0x01 bytes (not one) and a two-element
list yields an empty string (not two bytes): the info field's length does
not equal the length of the `msgIds` list. -/
theorem state_forgotten_info_uses_list_as_count :
    handleStateForgotten 100 [5]
        = some { reqMsgId := 100, info := List.replicate 5 1 } ∧
    (List.replicate 5 (1 : Nat)).length ≠ ([5] : List Int).length ∧
    handleStateForgotten 100 [5, 7]
        = some { reqMsgId := 100, info := [] } ∧
    ([] : List Nat).length ≠ ([5, 7] : List Int).length := by
  decide

lemma pushAck_length_le (ring : List RequestState) (a : RequestState)
    (h : ring.length ≤ 9) : (pushAckToLastAcks ring a).length ≤ 9 := by
  unfold pushAckToLastAcks
  dsimp only
  by_cases h10 : 10 ≤ (ring ++ [a]).length
  · simp only [h10, if_pos]
    simp at h10 ⊢
    omega
  · simp only [h10, if_neg, not_false_iff]
    simp at h10 ⊢
    omega

lemma foldl_pushAck_length_le (acks : List RequestState)
    (ring : List RequestState) (h : ring.length ≤ 9) :
    (acks.foldl pushAckToLastAcks ring).length ≤ 9 := by
  induction acks generalizing ring with
  | nil => simpa using h
  | cons a rest ih =>
    simp only [List.foldl_cons]
    exact ih _ (pushAck_length_le ring a h)

/-- C4 counterexample: with nine entries already in the ring (nine is not
more than ten, and even the length after the push is exactly ten, not
more), a push still evicts the oldest entry. -/
theorem lastacks_evicts_at_nine_counterexample :
    pushAckToLastAcks
        (List.replicate 9 (RequestState.mk0 (.msgsAck [])))
        (RequestState.mk0 (.msgsAck []))
      ≠ List.replicate 9 (RequestState.mk0 (.msgsAck []))
          ++ [RequestState.mk0 (.msgsAck [])] ∧
    (List.replicate 9 (RequestState.mk0 (.msgsAck []))).length ≤ 10 ∧
    (List.replicate 9 (RequestState.mk0 (.msgsAck []))
        ++ [RequestState.mk0 (.msgsAck [])]).length ≤ 10 := by
  refine ⟨?_, by decide, by decide⟩
  intro h
  have := congrArg List.length h
  simp [pushAckToLastAcks] at this

/-- C4 amended: the last-acks ring never exceeds 10 entries across any
sequence of send-loop iterations (in fact it settles at nine or fewer),
and the oldest entry is evicted on push as soon as the length after the
push reaches 10 — that is, already once the ring holds nine entries, not
only beyond ten. -/
theorem lastacks_bounded_evicts_once_ten_reached :
    (∀ acks : List RequestState,
      (acks.foldl pushAckToLastAcks []).length ≤ 10) ∧
    (∀ (ring : List RequestState) (a : RequestState),
      pushAckToLastAcks ring a = ring ++ [a] ↔ ring.length + 1 < 10) := by
  constructor
  · intro acks
    have h := foldl_pushAck_length_le acks [] (by simp)
    omega
  · intro ring a
    unfold pushAckToLastAcks
    dsimp only
    by_cases h10 : 10 ≤ (ring ++ [a]).length
    · simp only [h10, if_pos]
      constructor
      · intro heq
        have := congrArg List.length heq
        simp at this
      · intro hlt
        simp at h10
        omega
    · simp only [h10, if_neg, not_false_iff]
      simp at h10
      constructor
      · intro _
        omega
      · intro _
        trivial

lemma mapGet_cons (p : Int × RequestState) (t : PendingMap) (k : Int) :
    mapGet (p :: t) k = if p.1 == k then some p.2 else mapGet t k := by
  by_cases h : p.1 == k
  · simp [mapGet, List.find?_cons_of_pos, h]
  · simp [mapGet, List.find?_cons_of_neg, h]

lemma mapGet_eq_some_of_mem (m : PendingMap)
    (hnd : (m.map Prod.fst).Nodup) (k : Int) (st : RequestState)
    (hmem : (k, st) ∈ m) : mapGet m k = some st := by
  induction m with
  | nil => cases hmem
  | cons p t ih =>
    rcases List.mem_cons.mp hmem with h | h
    · rw [mapGet_cons, ← h]
      simp
    · have hk : k ∈ t.map Prod.fst := by
        have := List.mem_map_of_mem Prod.fst h
        simpa using this
      have hnd2 : (p.1 :: t.map Prod.fst).Nodup := by
        simpa only [List.map_cons] using hnd
      have hp : (p.1 == k) = false := by
        have hnin := (List.nodup_cons.mp hnd2).1
        simp only [beq_eq_false_iff_ne]
        intro he
        exact hnin (he ▸ hk)
      rw [mapGet_cons, hp]
      simp only [Bool.false_eq_true, if_false]
      exact ih (List.nodup_cons.mp hnd2).2 h

lemma mem_unique_of_nodupkeys (m : PendingMap)
    (hnd : (m.map Prod.fst).Nodup) {k : Int} {a b : RequestState}
    (h1 : (k, a) ∈ m) (h2 : (k, b) ∈ m) : a = b := by
  have e1 := mapGet_eq_some_of_mem m hnd k a h1
  have e2 := mapGet_eq_some_of_mem m hnd k b h2
  exact Option.some.inj (e1.symm.trans e2)

lemma snd_unique_of_nodupkeys (m : PendingMap)
    (hnd : (m.map Prod.fst).Nodup) {p q : Int × RequestState}
    (hp : p ∈ m) (hq : q ∈ m) (h : p.1 = q.1) : p.2 = q.2 := by
  obtain ⟨k1, a⟩ := p
  obtain ⟨k2, b⟩ := q
  dsimp at h
  subst h
  exact mem_unique_of_nodupkeys m hnd hp hq

lemma filterMap_eq_self_of_forall {α : Type} (l : List α) (f : α → Option α)
    (h : ∀ x ∈ l, f x = some x) : l.filterMap f = l := by
  induction l with
  | nil => rfl
  | cons a t ih =>
    rw [List.filterMap_cons, h a (List.mem_cons_self a t),
      ih (fun x hx => h x (List.mem_cons_of_mem a hx))]

lemma foldl_deleteByOptKey_eq_filter (K : List (Option JSBigInt))
    (m : PendingMap) :
    K.foldl (fun acc x => deleteByOptKey acc x) m
      = m.filter (fun p => !(K.any (fun x => keyHit x p.1))) := by
  induction K generalizing m with
  | nil => simp
  | cons x K' ih =>
    rw [List.foldl_cons, ih]
    cases x with
    | none =>
      show (deleteByOptKey m none).filter _ = _
      unfold deleteByOptKey
      apply List.filter_congr
      intro p _
      simp [keyHit, List.any_cons]
    | some j =>
      show (deleteByOptKey m (some j)).filter _ = _
      unfold deleteByOptKey mapDelete
      rw [List.filter_filter]
      apply List.filter_congr
      intro p _
      by_cases h : p.1 = j.val
      · simp [h, keyHit, List.any_cons]
      · have h1 : (p.1 != j.val) = true := by simp [h]
        have h2 : keyHit (some j) p.1 = false := by
          simp only [keyHit, beq_eq_false_iff_ne]
          exact fun he => h he.symm
        rw [h1]
        simp [List.any_cons, h2]

/-- C6 counterexample: the last-acks scan compares `ack.msgId === msgId`;
between two distinct big-integer objects with the same numeric value JS
`===` is false, so a ring ack matching the searched id by value is not
returned, although step 3 of the spec's algorithm returns it. -/
theorem popStates_ack_scan_counterexample :
    popStates [] [⟨.msgsAck [4], some ⟨1, 9⟩, none⟩] ⟨2, 9⟩
      ≠ popStatesSpec [] [⟨.msgsAck [4], some ⟨1, 9⟩, none⟩] ⟨2, 9⟩ := by
  decide

/-- C6 amended: on a well-formed pending map, `_popStates` computes steps
1 (direct hit), 2 (container fan-out by value) and 4 (empty) of the
spec's algorithm exactly, but its step-3 last-acks scan compares object
identity; for any searched id that is a different object from every ring
entry's msg id — as every network-deserialized `badMsgId` is — the scan
finds nothing and the result is that of the spec's algorithm on an empty
ring. -/
theorem popStates_spec_steps_with_identity_scan (pending : PendingMap)
    (lastAcks : List RequestState) (msgId : JSBigInt)
    (hwf : PendingWF pending)
    (hfresh : ∀ ack ∈ lastAcks, jsStrictEqOptBig ack.msgId msgId = false) :
    popStates pending lastAcks msgId = popStatesSpec pending [] msgId := by
  obtain ⟨hnd, hkey⟩ := hwf
  unfold popStates popStatesSpec
  cases hget : mapGet pending msgId.val with
  | some st => rfl
  | none =>
    dsimp only
    set matched := (mapValues pending).filter
        (fun st => containerHit st.containerId msgId) with hm
    have hemp : (matched.map (fun st => st.msgId)).isEmpty
        = matched.isEmpty := by
      cases matched <;> rfl
    rw [hemp]
    by_cases he : matched.isEmpty
    · simp only [he, if_true]
      have hnone : lastAcks.find?
          (fun ack => jsStrictEqOptBig ack.msgId msgId) = none := by
        rw [List.find?_eq_none]
        intro a ha
        simp [hfresh a ha]
      rw [hnone]
      rfl
    · simp only [he, Bool.false_eq_true, if_false]
      refine Prod.ext ?_ ?_
      · show (matched.map (fun st => st.msgId)).filterMap
            (fun x => getByOptKey pending x) = matched
        rw [List.filterMap_map]
        apply filterMap_eq_self_of_forall
        intro st hst
        have hv : st ∈ mapValues pending := by
          rw [hm] at hst
          exact List.mem_of_mem_filter hst
        obtain ⟨p, hp, hpe⟩ := List.mem_map.mp hv
        have hmem : (p.1, st) ∈ pending := by
          obtain ⟨k, a⟩ := p
          dsimp at hpe ⊢
          rw [← hpe]
          exact hp
        have hkh : keyHit st.msgId p.1 = true := by
          have := hkey p hp
          rw [hpe] at this
          exact this
        show getByOptKey pending st.msgId = some st
        cases hmsg : st.msgId with
        | none => rw [hmsg] at hkh; simp [keyHit] at hkh
        | some j =>
          rw [hmsg] at hkh
          have hjv : j.val = p.1 := by simpa [keyHit] using hkh
          show mapGet pending j.val = some st
          rw [hjv]
          exact mapGet_eq_some_of_mem pending hnd p.1 st hmem
      · show (matched.map (fun st => st.msgId)).foldl
            (fun acc x => deleteByOptKey acc x) pending
          = pending.filter (fun p => !(containerHit p.2.containerId msgId))
        rw [foldl_deleteByOptKey_eq_filter]
        apply List.filter_congr
        intro p hp
        have hkh : keyHit p.2.msgId p.1 = true := hkey p hp
        by_cases hc : containerHit p.2.containerId msgId = true
        · have hv : p.2 ∈ mapValues pending :=
            List.mem_map_of_mem Prod.snd hp
          have hmm : p.2 ∈ matched := by
            rw [hm]
            exact List.mem_filter.mpr ⟨hv, hc⟩
          have hany : ((matched.map (fun st => st.msgId)).any
              (fun x => keyHit x p.1)) = true := by
            apply List.any_eq_true.mpr
            exact ⟨p.2.msgId, List.mem_map_of_mem _ hmm, hkh⟩
          rw [hany, hc]
        · have hcf : containerHit p.2.containerId msgId = false := by
            revert hc
            cases containerHit p.2.containerId msgId <;> simp
          have hany : ((matched.map (fun st => st.msgId)).any
              (fun x => keyHit x p.1)) = false := by
            rw [List.any_eq_false]
            intro x hx
            obtain ⟨st, hst, hxe⟩ := List.mem_map.mp hx
            rw [hm] at hst
            obtain ⟨q, hq, hqe⟩ :=
              List.mem_map.mp (List.mem_of_mem_filter hst)
            have hqkh : keyHit st.msgId q.1 = true := by
              have := hkey q hq
              rw [hqe] at this
              exact this
            rw [← hxe]
            cases hmsg : st.msgId with
            | none => simp [keyHit]
            | some j =>
              rw [hmsg] at hqkh
              have hjq : j.val = q.1 := by simpa [keyHit] using hqkh
              simp only [keyHit, beq_eq_false_iff_ne]
              intro heq
              have heqv : j.val = p.1 := by simpa using heq
              have heq2 : q.1 = p.1 := by rw [← hjq]; exact heqv
              have hsame : q.2 = p.2 :=
                snd_unique_of_nodupkeys pending hnd hq hp heq2
              have hpred := (List.mem_filter.mp hst).2
              rw [hqe] at hsame
              rw [hsame] at hpred
              simp [hcf] at hpred
          rw [hany, hcf]

theorem popStates_spec_steps_with_identity_scan_witness :
    popStates
        [(1, ⟨.rpc 1, some ⟨3, 1⟩, some ⟨4, 9⟩⟩),
         (2, ⟨.rpc 2, some ⟨5, 2⟩, some ⟨6, 9⟩⟩)]
        [⟨.msgsAck [4], some ⟨1, 9⟩, none⟩] ⟨2, 9⟩
      = popStatesSpec
        [(1, ⟨.rpc 1, some ⟨3, 1⟩, some ⟨4, 9⟩⟩),
         (2, ⟨.rpc 2, some ⟨5, 2⟩, some ⟨6, 9⟩⟩)]
        [] ⟨2, 9⟩ :=
  popStates_spec_steps_with_identity_scan
    [(1, ⟨.rpc 1, some ⟨3, 1⟩, some ⟨4, 9⟩⟩),
     (2, ⟨.rpc 2, some ⟨5, 2⟩, some ⟨6, 9⟩⟩)]
    [⟨.msgsAck [4], some ⟨1, 9⟩, none⟩] ⟨2, 9⟩
    ⟨by decide, by decide⟩ (by decide)
